import Mathlib

/-!
Shallow embedding of the resilient external-call layer of the My-blog
repository and proofs about it.

Embedded source:
  * scripts/resilient_fetcher.py  (class ResilientFetcher: fetch_with_retry,
    fetch_batch, _calculate_backoff, _record_failure, get_success_rate, reset,
    constructor defaulting backed by scripts/config.py RETRY_CONFIG)
  * azure-functions/MyBlogSubscribers/email_subscriber.py
    (retry_table_operation decorator, subscribe_email)
  * azure-functions/MyBlogSubscribers/mailer.py (retry_with_backoff decorator)
  * scripts/compare_api_prices.py (_wait_for_rate_limit,
    fetch_alphavantage_stock rate-limit bookkeeping)

Durations are modelled as rationals (Python floats are used only as clock
readings and delays; no float rounding is load-bearing for the claims).
`time.sleep` calls are recorded as lists of slept durations in source order.
-/

/-- Statistics counters kept in `ResilientFetcher.stats` (resilient_fetcher.py,
constructor): total_attempts, primary_successes, fallback_successes,
total_failures, retries_used. -/
structure FetchStats where
  total_attempts : Nat
  primary_successes : Nat
  fallback_successes : Nat
  total_failures : Nat
  retries_used : Nat
  deriving DecidableEq, Repr

/-- Mutable state of one ResilientFetcher instance: the stats dict plus the
failed_tickers dict (ticker -> error message), modelled as a function map. -/
structure FetcherState where
  stats : FetchStats
  failed_tickers : String → Option String

/-- The all-zero stats dict the constructor and reset() install. -/
def initStats : FetchStats := ⟨0, 0, 0, 0, 0⟩

/-- A freshly constructed ResilientFetcher: zero stats, empty failure map. -/
def initState : FetcherState := ⟨initStats, fun _ => none⟩

/-- Outcome of one invocation of `primary_fetcher(ticker)` inside
fetch_with_retry: `ok q` is a truthy quote dict; `empty` is a falsy result
(None or an empty dict), the "soft failure" branch; `exn s` is a raised
exception, optionally carrying an HTTP status.  The source catches every
exception alike (`except Exception`), so the payload never affects control
flow; it is kept so that concrete scenarios (a 400 client error, a 503) can
be written down. -/
inductive PAttempt (Q : Type) where
  | ok (q : Q)
  | empty
  | exn (status : Option Int)
  deriving DecidableEq, Repr

/-- Boolean truthiness test of a primary-attempt outcome. -/
def PAttempt.isOk {Q : Type} : PAttempt Q → Bool
  | .ok _ => true
  | _ => false

/-- ResilientFetcher._calculate_backoff: `base_delay + backoff_base ** attempt`
(attempt is the 0-indexed attempt number, base_delay the per-call rate-limit
delay acting as a fixed floor). -/
def calculate_backoff (backoffBase : ℚ) (attempt : Nat) (baseDelay : ℚ) : ℚ :=
  baseDelay + backoffBase ^ attempt

/-- Result of the `for attempt in range(self.max_retries)` loop of
fetch_with_retry: either the first truthy result with its 0-based attempt
index, or exhaustion.  `sleeps` records the backoff sleeps performed inside
the loop and `calls` the number of invocations of the primary fetcher. -/
inductive LoopResult (Q : Type) where
  | success (attempt : Nat) (q : Q) (sleeps : List ℚ) (calls : Nat)
  | exhausted (sleeps : List ℚ) (calls : Nat)
  deriving DecidableEq, Repr

/-- The sleeps component of a LoopResult. -/
def LoopResult.sleepsOf {Q : Type} : LoopResult Q → List ℚ
  | .success _ _ s _ => s
  | .exhausted s _ => s

/-- The primary-retry loop of fetch_with_retry (resilient_fetcher.py lines
99-118), run with `fuel` remaining iterations starting at attempt index
`attempt`; the top-level entry uses fuel = mr, attempt = 0.  On an exception
the wait time `_calculate_backoff(attempt, rate_limit_delay)` is slept only
when `attempt < self.max_retries - 1`; an empty result never sleeps. -/
def primaryLoop {Q : Type} (mr : Nat) (base rld : ℚ) (primary : Nat → PAttempt Q) :
    Nat → Nat → LoopResult Q
  | 0, _ => .exhausted [] 0
  | fuel + 1, attempt =>
    match primary attempt with
    | .ok q => .success attempt q [] 1
    | .empty =>
      match primaryLoop mr base rld primary fuel (attempt + 1) with
      | .success a q s c => .success a q s (c + 1)
      | .exhausted s c => .exhausted s (c + 1)
    | .exn _ =>
      let wait := calculate_backoff base attempt rld
      let slept := if attempt < mr - 1 then [wait] else []
      match primaryLoop mr base rld primary fuel (attempt + 1) with
      | .success a q s c => .success a q (slept ++ s) (c + 1)
      | .exhausted s c => .exhausted (slept ++ s) (c + 1)

/-- Result of one fetch_with_retry call: the updated tracker state, the
returned quote (None on failure), the backoff sleeps performed, and how many
times the primary and the fallback fetchers were invoked. -/
structure FetchResult (Q : Type) where
  state : FetcherState
  quote : Option Q
  sleeps : List ℚ
  primaryCalls : Nat
  fallbackCalls : Nat

/-- ResilientFetcher._record_failure: store the error message under the ticker
in failed_tickers and bump total_failures. -/
def record_failure (st : FetcherState) (ticker msg : String) : FetcherState :=
  { stats := { st.stats with total_failures := st.stats.total_failures + 1 },
    failed_tickers := fun k => if k = ticker then some msg else st.failed_tickers k }

/-- ResilientFetcher.fetch_with_retry (resilient_fetcher.py lines 77-134).
Increments total_attempts, runs the primary loop (`range(self.max_retries)`
iterations); on a truthy result bumps primary_successes and, when the
successful attempt index is positive, adds it to retries_used; on exhaustion
tries the fallback exactly once (any exception or falsy result falls
through), bumping fallback_successes on success; otherwise records the
failure "All sources exhausted after retries" and returns None.
The fallback argument models `fallback_fetcher`: `none` when no fallback is
configured, otherwise the outcome of its single invocation. -/
def fetch_with_retry {Q : Type} (mr : Nat) (base : ℚ) (st : FetcherState) (ticker : String)
    (primary : Nat → PAttempt Q) (fallback : Option (PAttempt Q)) (rld : ℚ) :
    FetchResult Q :=
  let st1 : FetcherState :=
    { st with stats := { st.stats with total_attempts := st.stats.total_attempts + 1 } }
  match primaryLoop mr base rld primary mr 0 with
  | .success attempt q sleeps calls =>
    let s2 := { st1.stats with primary_successes := st1.stats.primary_successes + 1 }
    let s3 := if 0 < attempt then { s2 with retries_used := s2.retries_used + attempt } else s2
    ⟨{ st1 with stats := s3 }, some q, sleeps, calls, 0⟩
  | .exhausted sleeps calls =>
    match fallback with
    | some (.ok q) =>
      ⟨{ st1 with stats :=
          { st1.stats with fallback_successes := st1.stats.fallback_successes + 1 } },
        some q, sleeps, calls, 1⟩
    | some _ =>
      ⟨record_failure st1 ticker "All sources exhausted after retries", none, sleeps, calls, 1⟩
    | none =>
      ⟨record_failure st1 ticker "All sources exhausted after retries", none, sleeps, calls, 0⟩

/-- Result of fetch_batch: final state, the results dict (ticker -> quote,
modelled as a function map), the list of tickers actually processed (in
processing order), and all sleeps performed (inter-ticker rate-limit sleeps
and in-retry backoff sleeps) in chronological order. -/
structure BatchResult (Q : Type) where
  state : FetcherState
  results : String → Option Q
  processed : List String
  sleeps : List ℚ

/-- The loop body of fetch_batch (resilient_fetcher.py lines 159-175).
`first` is true exactly for the i = 0 iteration: the source sleeps
rate_limit_delay before an entity only when `i > 0 and rate_limit_delay > 0`.
On a falsy quote with continue_on_failure false the loop breaks, leaving the
remaining tickers unprocessed. -/
def fetchBatchGo {Q : Type} (mr : Nat) (base : ℚ) (primary : String → Nat → PAttempt Q)
    (fallback : Option (String → PAttempt Q)) (rld : ℚ) (cof : Bool) :
    FetcherState → List String → Bool → BatchResult Q
  | st, [], _ => ⟨st, fun _ => none, [], []⟩
  | st, t :: rest, first =>
    let pre : List ℚ := if first then [] else if 0 < rld then [rld] else []
    let r := fetch_with_retry mr base st t (primary t) (fallback.map fun f => f t) rld
    match r.quote with
    | some q =>
      let b := fetchBatchGo mr base primary fallback rld cof r.state rest false
      ⟨b.state,
        fun k =>
          match b.results k with
          | some v => some v
          | none => if k = t then some q else none,
        t :: b.processed, pre ++ r.sleeps ++ b.sleeps⟩
    | none =>
      if cof then
        let b := fetchBatchGo mr base primary fallback rld cof r.state rest false
        ⟨b.state, b.results, t :: b.processed, pre ++ r.sleeps ++ b.sleeps⟩
      else
        ⟨r.state, fun _ => none, [t], pre ++ r.sleeps⟩

/-- ResilientFetcher.fetch_batch (resilient_fetcher.py lines 136-177). -/
def fetch_batch {Q : Type} (mr : Nat) (base : ℚ) (st : FetcherState) (tickers : List String)
    (primary : String → Nat → PAttempt Q) (fallback : Option (String → PAttempt Q))
    (rld : ℚ) (cof : Bool) : BatchResult Q :=
  fetchBatchGo mr base primary fallback rld cof st tickers true

/-- ResilientFetcher.get_success_rate: 100.0 when total_attempts is 0,
otherwise (primary_successes + fallback_successes) / total_attempts * 100. -/
def get_success_rate (s : FetchStats) : ℚ :=
  if s.total_attempts = 0 then 100
  else ((s.primary_successes : ℚ) + (s.fallback_successes : ℚ)) / (s.total_attempts : ℚ) * 100

/-- ResilientFetcher.reset: clear failed_tickers and zero all counters. -/
def fetcher_reset (_st : FetcherState) : FetcherState := initState

/-- One caller-level operation on a ResilientFetcher, for stating invariants
over arbitrary call sequences. -/
inductive FetchOp (Q : Type) where
  | fetchOne (ticker : String) (primary : Nat → PAttempt Q)
      (fallback : Option (PAttempt Q)) (rld : ℚ)
  | fetchMany (tickers : List String) (primary : String → Nat → PAttempt Q)
      (fallback : Option (String → PAttempt Q)) (rld : ℚ) (cof : Bool)
  | resetOp

/-- Run one operation against the fetcher state. -/
def run_op {Q : Type} (mr : Nat) (base : ℚ) (st : FetcherState) : FetchOp Q → FetcherState
  | .fetchOne t p fb rld => (fetch_with_retry mr base st t p fb rld).state
  | .fetchMany ts p fb rld cof => (fetch_batch mr base st ts p fb rld cof).state
  | .resetOp => fetcher_reset st

/-- Run a sequence of operations from a starting state. -/
def run_ops {Q : Type} (mr : Nat) (base : ℚ) (ops : List (FetchOp Q)) (st : FetcherState) :
    FetcherState :=
  ops.foldl (run_op mr base) st

/-- The statistics invariant of the spec: each attempt resolves to at most one
terminal outcome. -/
def stats_inv (st : FetcherState) : Prop :=
  st.stats.primary_successes + st.stats.fallback_successes + st.stats.total_failures
    ≤ st.stats.total_attempts

/-- Outcome of one invocation of the function wrapped by a retry decorator:
it either returns a value or raises exception `e`. -/
inductive DecAttempt (V E : Type) where
  | ok (v : V)
  | exn (e : E)
  deriving DecidableEq, Repr

/-- Terminal outcome of a decorated call: the returned value, a propagated
exception, or the dead trailing `raise last_exception` after loop
exhaustion (unreachable from the real entry point). -/
inductive DecOutcome (V E : Type) where
  | ok (v : V)
  | raised (e : E)
  | exhausted (last : Option E)
  deriving DecidableEq, Repr

/-- Result of a decorated call: outcome, number of invocations of the wrapped
function, and the sleeps performed between attempts. -/
structure DecResult (V E : Type) where
  outcome : DecOutcome V E
  calls : Nat
  sleeps : List ℚ
  deriving DecidableEq, Repr

/-- The shared wrapper loop of retry_table_operation (email_subscriber.py
lines 26-67) and retry_with_backoff (mailer.py lines 26-61):
`for attempt in range(max_retries + 1)` invokes the function; an exception of
one of the caught classes (`caught e`) is examined and, when
`attempt < max_retries` and `retryable e`, sleeps `delay`, multiplies delay
by the backoff factor and continues; otherwise `raise last_exception`
(which is the current exception).  Any other exception is re-raised
immediately, which is also exactly what the dedicated
`except ResourceExistsError: raise` clause does for the one caught class it
could shadow. -/
def decGo {V E : Type} (caught retryable : E → Bool) (mr : Nat) (factor : ℚ)
    (behavior : Nat → DecAttempt V E) :
    Nat → Nat → ℚ → Option E → DecResult V E
  | 0, _, _, last => ⟨.exhausted last, 0, []⟩
  | fuel + 1, attempt, delay, _ =>
    match behavior attempt with
    | .ok v => ⟨.ok v, 1, []⟩
    | .exn e =>
      if caught e = true then
        if attempt < mr ∧ retryable e = true then
          let r := decGo caught retryable mr factor behavior fuel (attempt + 1)
            (delay * factor) (some e)
          ⟨r.outcome, r.calls + 1, delay :: r.sleeps⟩
        else ⟨.raised e, 1, []⟩
      else ⟨.raised e, 1, []⟩

/-- Entry point of a retry decorator: `max_retries + 1` loop iterations
starting at attempt 0 with the initial delay. -/
def run_decorator {V E : Type} (caught retryable : E → Bool) (mr : Nat)
    (initialDelay factor : ℚ) (behavior : Nat → DecAttempt V E) : DecResult V E :=
  decGo caught retryable mr factor behavior (mr + 1) 0 initialDelay none

/-- Exceptions distinguished by mailer.retry_with_backoff: ApiException
(carrying `getattr(e, 'status', 0)`), ConnectionError, TimeoutError, and
everything else. -/
inductive MailerExn where
  | apiException (status : Int)
  | connectionError
  | timeoutError
  | otherExn
  deriving DecidableEq, Repr

/-- Which exceptions the first except clause of retry_with_backoff catches. -/
def mailerCaught : MailerExn → Bool
  | .apiException _ => true
  | .connectionError => true
  | .timeoutError => true
  | .otherExn => false

/-- retry_with_backoff classification: an ApiException is retryable when
status >= 500 or status == 429; network errors are always retryable. -/
def mailerRetryable : MailerExn → Bool
  | .apiException s => decide (500 ≤ s) || decide (s = 429)
  | .connectionError => true
  | .timeoutError => true
  | .otherExn => false

/-- mailer.retry_with_backoff (mailer.py lines 13-64). -/
def retry_with_backoff {V : Type} (mr : Nat) (initialDelay factor : ℚ)
    (behavior : Nat → DecAttempt V MailerExn) : DecResult V MailerExn :=
  run_decorator mailerCaught mailerRetryable mr initialDelay factor behavior

/-- Exceptions distinguished by email_subscriber.retry_table_operation.
In azure.core.exceptions, ResourceExistsError is a subclass of
HttpResponseError, so the first except clause
`except (ServiceRequestError, HttpResponseError, ConnectionError)` catches it
before the dedicated `except ResourceExistsError` clause is consulted; a
duplicate create carries status_code 409. -/
inductive TableExn where
  | serviceRequest
  | httpResponse (status : Int)
  | resourceExists
  | connection
  | otherExn
  deriving DecidableEq, Repr

/-- isinstance(e, HttpResponseError), ResourceExistsError included. -/
def tableIsHttpResponse : TableExn → Bool
  | .httpResponse _ => true
  | .resourceExists => true
  | _ => false

/-- getattr(e, 'status_code', 0); a duplicate-create ResourceExistsError has
HTTP status 409 Conflict. -/
def tableStatusCode : TableExn → Int
  | .httpResponse s => s
  | .resourceExists => 409
  | _ => 0

/-- Which exceptions the first except clause of retry_table_operation
catches (ServiceRequestError, HttpResponseError and its subclass
ResourceExistsError, ConnectionError). -/
def tableCaught : TableExn → Bool
  | .serviceRequest => true
  | .httpResponse _ => true
  | .resourceExists => true
  | .connection => true
  | .otherExn => false

/-- retry_table_operation classification: an HttpResponseError is retryable
when status_code >= 500 or status_code == 429; ServiceRequestError and
ConnectionError are always retryable. -/
def tableRetryable (e : TableExn) : Bool :=
  if tableIsHttpResponse e = true then
    decide (500 ≤ tableStatusCode e) || decide (tableStatusCode e = 429)
  else
    match e with
    | .serviceRequest => true
    | .connection => true
    | _ => false

/-- email_subscriber.retry_table_operation (email_subscriber.py lines 13-70). -/
def retry_table_operation {V : Type} (mr : Nat) (initialDelay factor : ℚ)
    (behavior : Nat → DecAttempt V TableExn) : DecResult V TableExn :=
  run_decorator tableCaught tableRetryable mr initialDelay factor behavior

/-- The status subscribe_email reports to its caller: the "created" dict, the
"exists" dict, or a raised SubscriptionError. -/
inductive SubscribeStatus where
  | created
  | existing
  | failedWithError
  deriving DecidableEq, Repr

/-- email_subscriber.subscribe_email composed with _create_entity_with_retry,
which is table.create_entity wrapped by
retry_table_operation(max_retries=3, initial_delay=0.5, backoff_factor=2.0).
A normal return yields the "created" status; an escaping ResourceExistsError
is caught and yields the "exists" status; any other escaping exception is
wrapped in SubscriptionError. -/
def subscribe_email (createBehavior : Nat → DecAttempt Unit TableExn) : SubscribeStatus :=
  match (retry_table_operation 3 (1/2) 2 createBehavior).outcome with
  | .ok _ => .created
  | .raised .resourceExists => .existing
  | .raised _ => .failedWithError
  | .exhausted _ => .failedWithError

/-- The sleep durations a retry decorator performs when every attempt fails
with a retryable error: delay starts at d and is multiplied by f after each
sleep. -/
def expectedDecSleeps (d f : ℚ) : Nat → List ℚ
  | 0 => []
  | k + 1 => d :: expectedDecSleeps (d * f) f k

/-- APIPriceComparator._wait_for_rate_limit (compare_api_prices.py lines
64-70): elapsed = now - last_call_time; when elapsed < min_interval the
caller sleeps min_interval - elapsed, otherwise it does not sleep.  Returns
the slept duration. -/
def wait_for_rate_limit (lastCall minInterval now : ℚ) : ℚ :=
  if now - lastCall < minInterval then minInterval - (now - lastCall) else 0

/-- The four response shapes fetch_alphavantage_stock distinguishes: a body
with a non-empty "Global Quote", a body with a "Note" (provider-side rate
limiting), any other body, or a raised exception (network error, non-2xx
status, JSON parse failure). -/
inductive AVResp where
  | globalQuote (price : ℚ) (dateStr : String)
  | note
  | emptyData
  | raisedExn (msg : String)
  deriving DecidableEq, Repr

/-- The dict fetch_alphavantage_stock returns: a quote, or an error marker
("Rate limit exceeded" / "No data returned" / the exception message). -/
inductive AVResult where
  | quoteData (price : ℚ) (dateStr : String)
  | rateLimitErr
  | noDataErr
  | exnErr (msg : String)
  deriving DecidableEq, Repr

/-- The response-to-result mapping of fetch_alphavantage_stock. -/
def avParse : AVResp → AVResult
  | .globalQuote p d => .quoteData p d
  | .note => .rateLimitErr
  | .emptyData => .noDataErr
  | .raisedExn m => .exnErr m

/-- Observable effects of one fetch_alphavantage_stock call: the duration
slept for rate limiting, the new last_alphavantage_call timestamp, and the
returned dict (none when no API key is configured). -/
structure AVCallState where
  sleepDuration : ℚ
  last_alphavantage_call : ℚ
  result : Option AVResult
  deriving DecidableEq, Repr

/-- APIPriceComparator.fetch_alphavantage_stock (compare_api_prices.py lines
74-125): with no API key it returns None untouched; otherwise it waits for
the rate limit (elapsed measured at clock reading t1), then sets
last_alphavantage_call = time.time() (clock reading t2) BEFORE issuing the
request, so the timestamp is updated no matter how the request ends. -/
def fetch_alphavantage_stock (hasKey : Bool) (lastCall minInterval t1 t2 : ℚ)
    (resp : AVResp) : AVCallState :=
  if hasKey then
    ⟨wait_for_rate_limit lastCall minInterval t1, t2, some (avParse resp)⟩
  else ⟨0, lastCall, none⟩

/-- Python `x or default` for an optional int argument: None and 0 are falsy
and give the default. -/
def py_or_int (x : Option Int) (d : Int) : Int :=
  match x with
  | none => d
  | some v => if v = 0 then d else v

/-- Python `x or default` for an optional float argument: None and 0.0 are
falsy and give the default. -/
def py_or_rat (x : Option ℚ) (d : ℚ) : ℚ :=
  match x with
  | none => d
  | some v => if v = 0 then d else v

/-- The three configuration fields ResilientFetcher.__init__ sets. -/
structure FetcherConfig where
  max_retries : Int
  backoff_base : ℚ
  timeout : ℚ
  deriving DecidableEq, Repr

/-- ResilientFetcher.__init__ (resilient_fetcher.py lines 47-63) with the
RETRY_CONFIG defaults of scripts/config.py (max_retries 3, backoff_base 2.0,
timeout 10.0): each argument is defaulted by truthiness
(`max_retries or RETRY_CONFIG["max_retries"]`, etc.). -/
def resilient_fetcher_init (mr : Option Int) (bb tmo : Option ℚ) : FetcherConfig :=
  ⟨py_or_int mr 3, py_or_rat bb 2, py_or_rat tmo 10⟩

/-- The quote fetch_with_retry would deliver for ticker t, as a function of
the fetch behaviors only (the tracker state never influences the returned
quote). -/
def entity_quote {Q : Type} (mr : Nat) (base : ℚ) (primary : String → Nat → PAttempt Q)
    (fallback : Option (String → PAttempt Q)) (rld : ℚ) (t : String) : Option Q :=
  (fetch_with_retry mr base initState t (primary t) (fallback.map fun f => f t) rld).quote

/-- The backoff sleeps fetch_with_retry performs for ticker t, as a function
of the fetch behaviors only. -/
def entity_sleeps {Q : Type} (mr : Nat) (base : ℚ) (primary : String → Nat → PAttempt Q)
    (fallback : Option (String → PAttempt Q)) (rld : ℚ) (t : String) : List ℚ :=
  (fetch_with_retry mr base initState t (primary t) (fallback.map fun f => f t) rld).sleeps

/-- Modelled from the spec: the sleep schedule fetch_batch is specified to
produce over the processed tickers, written independently of the loop -- the
per-entity backoff sleeps, with the inter-entity rate-limit sleep `sep`
inserted strictly between consecutive entities. -/
def specBatchSleeps (sep : List ℚ) (es : String → List ℚ) : Bool → List String → List ℚ
  | _, [] => []
  | first, t :: rest =>
    (if first then [] else sep) ++ es t ++ specBatchSleeps sep es false rest

/-- Concrete behavior: the primary fetcher raises an HTTP 503 on every
attempt (a transient server error). -/
def always503Primary : Nat → PAttempt Unit := fun _ => .exn (some 503)

/-- Concrete behavior: the primary fetcher raises an HTTP 400 client error on
every attempt. -/
def alwaysClientError : Nat → PAttempt Unit := fun _ => .exn (some 400)

/-- Concrete behavior: one 503 failure, then a truthy result (success on the
second attempt, K = 2). -/
def failOnceThenOk : Nat → PAttempt Unit := fun i => if i < 1 then .exn (some 503) else .ok ()

/-- Concrete behavior: three 503 failures, then a truthy result (first
success would be attempt number 4 = max_retries + 1 under the default
configuration). -/
def failThriceThenOk : Nat → PAttempt Unit := fun i => if i < 3 then .exn (some 503) else .ok ()

/-- Concrete decorated-table behavior: every attempt raises
HttpResponseError with status 503. -/
def always503Table : Nat → DecAttempt Unit TableExn := fun _ => .exn (.httpResponse 503)

/-- Concrete decorated-table behavior: every attempt raises
ResourceExistsError (duplicate create). -/
def alwaysExistsTable : Nat → DecAttempt Unit TableExn := fun _ => .exn .resourceExists

/-- Concrete mailer behavior: every attempt raises ApiException with
status 400. -/
def always400Mailer : Nat → DecAttempt Unit MailerExn := fun _ => .exn (.apiException 400)

/-- Concrete batch behavior: ticker "AAA" succeeds immediately, every other
ticker raises 500 on every attempt. -/
def batchDemoPrimary : String → Nat → PAttempt Unit :=
  fun t _ => if t = "AAA" then .ok () else .exn (some 500)

/-- When every attempt from `attempt` on raises, the primary loop exhausts its
fuel, invoking the fetcher once per remaining iteration and sleeping on every
iteration except the last one of the whole loop. -/
theorem primaryLoop_all_exn {Q : Type} (mr : Nat) (base rld : ℚ) (primary : Nat → PAttempt Q)
    (fuel : Nat) :
    ∀ attempt, attempt + fuel = mr →
      (∀ i, attempt ≤ i → ∃ m, primary i = .exn m) →
      ∃ s, primaryLoop mr base rld primary fuel attempt = .exhausted s fuel ∧
        s.length = fuel - 1 := by
  induction fuel with
  | zero =>
    intro attempt _ _
    exact ⟨[], rfl, rfl⟩
  | succ k ih =>
    intro attempt hsum hfail
    obtain ⟨m, hm⟩ := hfail attempt le_rfl
    cases k with
    | zero =>
      have hnot : ¬ attempt < mr - 1 := by omega
      refine ⟨[], ?_, rfl⟩
      simp [primaryLoop, hm, hnot]
    | succ k2 =>
      have hlt : attempt < mr - 1 := by omega
      obtain ⟨s, hs, hlen⟩ := ih (attempt + 1) (by omega) (fun i hi => hfail i (by omega))
      refine ⟨calculate_backoff base attempt rld :: s, ?_, ?_⟩
      · rw [show primaryLoop mr base rld primary (k2 + 1 + 1) attempt =
            (match primary attempt with
             | .ok q => .success attempt q [] 1
             | .empty =>
               match primaryLoop mr base rld primary (k2 + 1) (attempt + 1) with
               | .success a q s c => .success a q s (c + 1)
               | .exhausted s c => .exhausted s (c + 1)
             | .exn _ =>
               match primaryLoop mr base rld primary (k2 + 1) (attempt + 1) with
               | .success a q s c => .success a q
                  ((if attempt < mr - 1 then [calculate_backoff base attempt rld] else []) ++ s)
                  (c + 1)
               | .exhausted s c => .exhausted
                  ((if attempt < mr - 1 then [calculate_backoff base attempt rld] else []) ++ s)
                  (c + 1))
            from rfl, hm, hs]
        simp [hlt]
      · simp [hlen]

/-- When the attempts before index `attempt + j` are all falsy or raising and
attempt `attempt + j` returns a truthy result, the loop reports success at
that index. -/
theorem primaryLoop_first_success {Q : Type} (mr : Nat) (base rld : ℚ)
    (primary : Nat → PAttempt Q) (fuel : Nat) :
    ∀ attempt j q, j < fuel →
      (∀ i, i < j → (primary (attempt + i)).isOk = false) →
      primary (attempt + j) = .ok q →
      ∃ s c, primaryLoop mr base rld primary fuel attempt = .success (attempt + j) q s c := by
  induction fuel with
  | zero =>
    intro _ j _ hj _ _
    exact absurd hj (by omega)
  | succ k ih =>
    intro attempt j q hj hfail hok
    cases j with
    | zero =>
      refine ⟨[], 1, ?_⟩
      simp only [Nat.add_zero] at hok
      simp [primaryLoop, hok]
    | succ j2 =>
      have h0 : (primary attempt).isOk = false := by
        simpa using hfail 0 (by omega)
      have hok' : primary (attempt + 1 + j2) = .ok q := by
        have : attempt + 1 + j2 = attempt + (j2 + 1) := by omega
        rw [this]; exact hok
      obtain ⟨s, c, hs⟩ := ih (attempt + 1) j2 q (by omega)
        (fun i hi => by
          have := hfail (i + 1) (by omega)
          have harr : attempt + (i + 1) = attempt + 1 + i := by omega
          rwa [harr] at this) hok'
      have hidx : attempt + 1 + j2 = attempt + (j2 + 1) := by omega
      rw [hidx] at hs
      cases hp : primary attempt with
      | ok q' => simp [PAttempt.isOk, hp] at h0
      | empty => exact ⟨s, c + 1, by simp [primaryLoop, hp, hs]⟩
      | exn m =>
        exact ⟨(if attempt < mr - 1 then [calculate_backoff base attempt rld] else []) ++ s,
          c + 1, by simp [primaryLoop, hp, hs]⟩

/-- When every attempt from `attempt` on is falsy or raising, the loop
exhausts. -/
theorem primaryLoop_all_fail {Q : Type} (mr : Nat) (base rld : ℚ)
    (primary : Nat → PAttempt Q) (fuel : Nat) :
    ∀ attempt, (∀ i, attempt ≤ i → (primary i).isOk = false) →
      ∃ s c, primaryLoop mr base rld primary fuel attempt = .exhausted s c := by
  induction fuel with
  | zero => intro attempt _; exact ⟨[], 0, rfl⟩
  | succ k ih =>
    intro attempt hfail
    obtain ⟨s, c, hs⟩ := ih (attempt + 1) (fun i hi => hfail i (by omega))
    cases hp : primary attempt with
    | ok q => simpa [PAttempt.isOk, hp] using hfail attempt le_rfl
    | empty => exact ⟨s, c + 1, by simp [primaryLoop, hp, hs]⟩
    | exn m =>
      exact ⟨(if attempt < mr - 1 then [calculate_backoff base attempt rld] else []) ++ s,
        c + 1, by simp [primaryLoop, hp, hs]⟩

/-- Every sleep performed inside the primary loop is a computed backoff value
for some attempt index that still had a retry ahead of it. -/
theorem primaryLoop_sleeps_backoff {Q : Type} (mr : Nat) (base rld : ℚ)
    (primary : Nat → PAttempt Q) (fuel : Nat) :
    ∀ attempt x, x ∈ (primaryLoop mr base rld primary fuel attempt).sleepsOf →
      ∃ a, a < mr - 1 ∧ x = calculate_backoff base a rld := by
  induction fuel with
  | zero => intro attempt x hx; simp [primaryLoop, LoopResult.sleepsOf] at hx
  | succ k ih =>
    intro attempt x hx
    cases hp : primary attempt with
    | ok q => simp [primaryLoop, hp, LoopResult.sleepsOf] at hx
    | empty =>
      rw [show primaryLoop mr base rld primary (k + 1) attempt =
          (match primaryLoop mr base rld primary k (attempt + 1) with
           | .success a q s c => .success a q s (c + 1)
           | .exhausted s c => .exhausted s (c + 1)) by simp [primaryLoop, hp]] at hx
      cases hr : primaryLoop mr base rld primary k (attempt + 1) with
      | success a q s c =>
        rw [hr] at hx
        exact ih (attempt + 1) x (by simpa [LoopResult.sleepsOf, hr] using hx)
      | exhausted s c =>
        rw [hr] at hx
        exact ih (attempt + 1) x (by simpa [LoopResult.sleepsOf, hr] using hx)
    | exn m =>
      rw [show primaryLoop mr base rld primary (k + 1) attempt =
          (match primaryLoop mr base rld primary k (attempt + 1) with
           | .success a q s c => .success a q
              ((if attempt < mr - 1 then [calculate_backoff base attempt rld] else []) ++ s)
              (c + 1)
           | .exhausted s c => .exhausted
              ((if attempt < mr - 1 then [calculate_backoff base attempt rld] else []) ++ s)
              (c + 1)) by simp [primaryLoop, hp]] at hx
      cases hr : primaryLoop mr base rld primary k (attempt + 1) with
      | success a q s c =>
        rw [hr] at hx
        simp only [LoopResult.sleepsOf, List.mem_append] at hx
        rcases hx with hx | hx
        · by_cases hc : attempt < mr - 1
          · simp [hc] at hx
            exact ⟨attempt, hc, hx⟩
          · simp [hc] at hx
        · exact ih (attempt + 1) x (by simpa [LoopResult.sleepsOf, hr])
      | exhausted s c =>
        rw [hr] at hx
        simp only [LoopResult.sleepsOf, List.mem_append] at hx
        rcases hx with hx | hx
        · by_cases hc : attempt < mr - 1
          · simp [hc] at hx
            exact ⟨attempt, hc, hx⟩
          · simp [hc] at hx
        · exact ih (attempt + 1) x (by simpa [LoopResult.sleepsOf, hr])

/-- When every attempt raises a caught retryable exception, a decorator loop
with k + 1 iterations left invokes the function k + 1 times, sleeps the
geometric delay schedule, and finally re-raises the exception of its last
attempt (index mr, the mr + 1st try). -/
theorem decGo_all_retryable {V E : Type} (caught retryable : E → Bool) (mr : Nat)
    (factor : ℚ) (behavior : Nat → DecAttempt V E)
    (hfail : ∀ i, ∃ e, behavior i = .exn e ∧ caught e = true ∧ retryable e = true)
    (k : Nat) :
    ∀ attempt delay last, attempt + k = mr →
      ∃ e, behavior mr = .exn e ∧
        decGo caught retryable mr factor behavior (k + 1) attempt delay last =
          ⟨.raised e, k + 1, expectedDecSleeps delay factor k⟩ := by
  induction k with
  | zero =>
    intro attempt delay last h
    obtain ⟨e, he, hc, hr⟩ := hfail mr
    have ha : attempt = mr := by omega
    subst ha
    refine ⟨e, he, ?_⟩
    simp [decGo, he, hc, expectedDecSleeps]
  | succ k2 ih =>
    intro attempt delay last h
    obtain ⟨e0, he0, hc0, hr0⟩ := hfail attempt
    obtain ⟨e, he, hrec⟩ := ih (attempt + 1) (delay * factor) (some e0) (by omega)
    refine ⟨e, he, ?_⟩
    have hlt : attempt < mr := by omega
    rw [show decGo caught retryable mr factor behavior (k2 + 1 + 1) attempt delay last =
        (match behavior attempt with
         | .ok v => ⟨.ok v, 1, []⟩
         | .exn e =>
           if caught e = true then
             if attempt < mr ∧ retryable e = true then
               let r := decGo caught retryable mr factor behavior (k2 + 1) (attempt + 1)
                 (delay * factor) (some e)
               ⟨r.outcome, r.calls + 1, delay :: r.sleeps⟩
             else ⟨.raised e, 1, []⟩
           else ⟨.raised e, 1, []⟩)
        from rfl, he0]
    simp [hc0, hr0, hlt, hrec, expectedDecSleeps]

/-- The i-th sleep of the geometric decorator schedule starting at d with
factor f is d * f ^ i. -/
theorem expectedDecSleeps_get (f : ℚ) (k : Nat) :
    ∀ (d : ℚ) (i : Nat), i < k → (expectedDecSleeps d f k)[i]? = some (d * f ^ i) := by
  induction k with
  | zero => intro d i h; exact absurd h (by omega)
  | succ k2 ih =>
    intro d i h
    cases i with
    | zero => simp [expectedDecSleeps]
    | succ i2 =>
      have hrec := ih (d * f) i2 (by omega)
      simp only [expectedDecSleeps, List.getElem?_cons_succ, hrec]
      congr 1
      ring

/-- One fetch_with_retry call bumps total_attempts by exactly one and bumps
exactly one of primary_successes, fallback_successes, total_failures. -/
theorem fetch_stats_delta {Q : Type} (mr : Nat) (base : ℚ) (st : FetcherState) (t : String)
    (p : Nat → PAttempt Q) (fb : Option (PAttempt Q)) (rld : ℚ) :
    (fetch_with_retry mr base st t p fb rld).state.stats.total_attempts
        = st.stats.total_attempts + 1 ∧
    (fetch_with_retry mr base st t p fb rld).state.stats.primary_successes
        + (fetch_with_retry mr base st t p fb rld).state.stats.fallback_successes
        + (fetch_with_retry mr base st t p fb rld).state.stats.total_failures
      = st.stats.primary_successes + st.stats.fallback_successes
        + st.stats.total_failures + 1 := by
  unfold fetch_with_retry
  cases hl : primaryLoop mr base rld p mr 0 with
  | success a q s c =>
    by_cases ha : 0 < a <;> simp [ha, record_failure] <;> omega
  | exhausted s c =>
    cases fb with
    | none => simp [record_failure]; omega
    | some fa => cases fa <;> simp [record_failure] <;> omega

/-- The quote and the sleeps of fetch_with_retry do not depend on the tracker
state the call starts from. -/
theorem fetch_quote_sleeps_st {Q : Type} (mr : Nat) (base : ℚ) (st st' : FetcherState)
    (t : String) (p : Nat → PAttempt Q) (fb : Option (PAttempt Q)) (rld : ℚ) :
    (fetch_with_retry mr base st t p fb rld).quote
        = (fetch_with_retry mr base st' t p fb rld).quote ∧
    (fetch_with_retry mr base st t p fb rld).sleeps
        = (fetch_with_retry mr base st' t p fb rld).sleeps := by
  unfold fetch_with_retry
  cases hl : primaryLoop mr base rld p mr 0 with
  | success a q s c => simp
  | exhausted s c =>
    cases fb with
    | none => simp [record_failure]
    | some fa => cases fa <;> simp [record_failure]

/-- Stepping the state by one attempt with one terminal outcome preserves the
statistics invariant. -/
theorem stats_inv_step {st st2 : FetcherState}
    (h1 : st2.stats.total_attempts = st.stats.total_attempts + 1)
    (h2 : st2.stats.primary_successes + st2.stats.fallback_successes
        + st2.stats.total_failures
      = st.stats.primary_successes + st.stats.fallback_successes
        + st.stats.total_failures + 1)
    (h : stats_inv st) : stats_inv st2 := by
  simp only [stats_inv] at h ⊢
  omega

/-- The batch loop preserves the statistics invariant. -/
theorem batch_preserves_inv {Q : Type} (mr : Nat) (base : ℚ)
    (primary : String → Nat → PAttempt Q) (fallback : Option (String → PAttempt Q))
    (rld : ℚ) (cof : Bool) (ts : List String) :
    ∀ st first, stats_inv st →
      stats_inv ((fetchBatchGo mr base primary fallback rld cof st ts first).state) := by
  induction ts with
  | nil => intro st first h; simpa [fetchBatchGo] using h
  | cons t rest ih =>
    intro st first h
    have hd := fetch_stats_delta mr base st t (primary t) (fallback.map fun f => f t) rld
    have hinv1 : stats_inv
        (fetch_with_retry mr base st t (primary t) (fallback.map fun f => f t) rld).state :=
      stats_inv_step hd.1 hd.2 h
    simp only [fetchBatchGo]
    cases hq : (fetch_with_retry mr base st t (primary t) (fallback.map fun f => f t) rld).quote with
    | some q => simpa [hq] using ih _ false hinv1
    | none =>
      cases cof with
      | false => simpa [hq] using hinv1
      | true => simpa [hq] using ih _ false hinv1

/-- Every caller-level operation preserves the statistics invariant. -/
theorem run_op_preserves {Q : Type} (mr : Nat) (base : ℚ) (op : FetchOp Q) :
    ∀ st, stats_inv st → stats_inv (run_op mr base st op) := by
  intro st h
  cases op with
  | fetchOne t p fb rld =>
    have hd := fetch_stats_delta mr base st t p fb rld
    simp only [run_op, stats_inv] at h ⊢
    omega
  | fetchMany ts p fb rld cof =>
    exact batch_preserves_inv mr base p fb rld cof ts st true h
  | resetOp =>
    simp [run_op, fetcher_reset, initState, initStats, stats_inv]

/-- The processed list of the batch loop: all tickers when
continue_on_failure, otherwise everything up to and including the first
ticker whose fetch comes back falsy. -/
theorem batch_processed_char {Q : Type} (mr : Nat) (base : ℚ)
    (primary : String → Nat → PAttempt Q) (fallback : Option (String → PAttempt Q))
    (rld : ℚ) (cof : Bool) (ts : List String) :
    ∀ st first,
      (fetchBatchGo mr base primary fallback rld cof st ts first).processed =
        (if cof = true then ts
         else ts.takeWhile (fun u => (entity_quote mr base primary fallback rld u).isSome)
           ++ (ts.dropWhile (fun u => (entity_quote mr base primary fallback rld u).isSome)).take 1) := by
  induction ts with
  | nil => intro st first; cases cof <;> simp [fetchBatchGo]
  | cons t rest ih =>
    intro st first
    have hq' : (fetch_with_retry mr base st t (primary t) (fallback.map fun f => f t) rld).quote
        = entity_quote mr base primary fallback rld t :=
      (fetch_quote_sleeps_st mr base st initState t (primary t) (fallback.map fun f => f t) rld).1
    simp only [fetchBatchGo]
    cases hqv : entity_quote mr base primary fallback rld t with
    | some q =>
      simp only [hq', hqv]
      rw [ih _ false]
      cases cof with
      | true => simp
      | false => simp [List.takeWhile_cons, List.dropWhile_cons, hqv]
    | none =>
      simp only [hq', hqv]
      cases cof with
      | true => rw [ih _ false]; simp
      | false => simp [List.takeWhile_cons, List.dropWhile_cons, hqv]

/-- The sleeps of the batch loop are exactly the per-entity backoff sleeps
with the inter-entity rate-limit sleep inserted strictly between consecutive
processed entities. -/
theorem batch_sleeps_char {Q : Type} (mr : Nat) (base : ℚ)
    (primary : String → Nat → PAttempt Q) (fallback : Option (String → PAttempt Q))
    (rld : ℚ) (cof : Bool) (ts : List String) :
    ∀ st first,
      (fetchBatchGo mr base primary fallback rld cof st ts first).sleeps =
        specBatchSleeps (if 0 < rld then [rld] else [])
          (entity_sleeps mr base primary fallback rld) first
          ((fetchBatchGo mr base primary fallback rld cof st ts first).processed) := by
  induction ts with
  | nil => intro st first; simp [fetchBatchGo, specBatchSleeps]
  | cons t rest ih =>
    intro st first
    have hq' : (fetch_with_retry mr base st t (primary t) (fallback.map fun f => f t) rld).quote
        = entity_quote mr base primary fallback rld t :=
      (fetch_quote_sleeps_st mr base st initState t (primary t) (fallback.map fun f => f t) rld).1
    have hs' : (fetch_with_retry mr base st t (primary t) (fallback.map fun f => f t) rld).sleeps
        = entity_sleeps mr base primary fallback rld t :=
      (fetch_quote_sleeps_st mr base st initState t (primary t) (fallback.map fun f => f t) rld).2
    simp only [fetchBatchGo]
    cases hqv : entity_quote mr base primary fallback rld t with
    | some q =>
      simp only [hq', hqv]
      rw [hs', ih _ false]
      cases first <;> simp [specBatchSleeps]
    | none =>
      simp only [hq', hqv]
      cases cof with
      | true =>
        rw [hs', ih _ false]
        cases first <;> simp [specBatchSleeps]
      | false =>
        rw [hs']
        cases first <;> simp [specBatchSleeps]

/-- The results map of the batch loop holds exactly the quotes of the
processed tickers whose fetch succeeded. -/
theorem batch_results_char {Q : Type} (mr : Nat) (base : ℚ)
    (primary : String → Nat → PAttempt Q) (fallback : Option (String → PAttempt Q))
    (rld : ℚ) (cof : Bool) (ts : List String) :
    ∀ st first k,
      (fetchBatchGo mr base primary fallback rld cof st ts first).results k =
        (if k ∈ (fetchBatchGo mr base primary fallback rld cof st ts first).processed
         then entity_quote mr base primary fallback rld k else none) := by
  induction ts with
  | nil => intro st first k; simp [fetchBatchGo]
  | cons t rest ih =>
    intro st first k
    have hq' : (fetch_with_retry mr base st t (primary t) (fallback.map fun f => f t) rld).quote
        = entity_quote mr base primary fallback rld t :=
      (fetch_quote_sleeps_st mr base st initState t (primary t) (fallback.map fun f => f t) rld).1
    simp only [fetchBatchGo]
    cases hqv : entity_quote mr base primary fallback rld t with
    | some q =>
      simp only [hq', hqv]
      rw [ih _ false k]
      by_cases hk : k = t
      · subst hk
        by_cases hm : k ∈ (fetchBatchGo mr base primary fallback rld cof
            (fetch_with_retry mr base st k (primary k) (fallback.map fun f => f k) rld).state
            rest false).processed
        · simp [hm, hqv]
        · simp [hm, hqv]
      · by_cases hm : k ∈ (fetchBatchGo mr base primary fallback rld cof
            (fetch_with_retry mr base st t (primary t) (fallback.map fun f => f t) rld).state
            rest false).processed
        · cases he : entity_quote mr base primary fallback rld k <;> simp [hm, hk, he]
        · simp [hm, hk]
    | none =>
      simp only [hq', hqv]
      cases cof with
      | true =>
        simp only [reduceIte]
        rw [ih _ false k]
        by_cases hk : k = t
        · subst hk
          by_cases hm : k ∈ (fetchBatchGo mr base primary fallback rld true
              (fetch_with_retry mr base st k (primary k) (fallback.map fun f => f k) rld).state
              rest false).processed
          · simp [hm, hqv]
          · simp [hm, hqv]
        · simp [hk]
      | false =>
        by_cases hk : k = t
        · subst hk; simp [hqv]
        · simp [hk]

/-- A decorator attempt that raises an exception which is not retried at this
attempt (not retryable, or no retries left) is re-raised immediately after a
single invocation with no sleep, whether or not the exception class is among
the caught ones. -/
theorem decGo_noretry_step {V E : Type} (caught retryable : E → Bool) (mr : Nat) (factor : ℚ)
    (behavior : Nat → DecAttempt V E) (fuel attempt : Nat) (delay : ℚ) (last : Option E)
    (e : E) (hb : behavior attempt = .exn e)
    (hnr : ¬ (attempt < mr ∧ retryable e = true)) :
    decGo caught retryable mr factor behavior (fuel + 1) attempt delay last =
      ⟨.raised e, 1, []⟩ := by
  simp [decGo, hb, hnr]

/-- The sleeps of a fetch_with_retry call are exactly the sleeps of its
primary loop: neither the fallback attempt nor the bookkeeping sleeps. -/
theorem fetch_sleeps_eq_loop {Q : Type} (mr : Nat) (base : ℚ) (st : FetcherState) (t : String)
    (p : Nat → PAttempt Q) (fb : Option (PAttempt Q)) (rld : ℚ) :
    (fetch_with_retry mr base st t p fb rld).sleeps
      = (primaryLoop mr base rld p mr 0).sleepsOf := by
  unfold fetch_with_retry
  cases hl : primaryLoop mr base rld p mr 0 with
  | success a q s c => simp [LoopResult.sleepsOf]
  | exhausted s c =>
    cases fb with
    | none => simp [LoopResult.sleepsOf]
    | some fa => cases fa <;> simp [LoopResult.sleepsOf]

/-- C5: for every sequence of fetch_with_retry, fetch_batch and reset calls
on one ResilientFetcher, the statistics satisfy primary_successes +
fallback_successes + total_failures ≤ total_attempts, since each attempt
resolves to at most one terminal outcome. -/
theorem claim5_theorem (Q : Type) (mr : Nat) (base : ℚ) (ops : List (FetchOp Q)) :
    stats_inv (run_ops mr base ops initState) := by
  have main : ∀ (l : List (FetchOp Q)) (st : FetcherState), stats_inv st →
      stats_inv (run_ops mr base l st) := by
    intro l
    induction l with
    | nil => intro st h; simpa [run_ops] using h
    | cons op rest ih =>
      intro st h
      have hstep := run_op_preserves mr base op st h
      simpa [run_ops] using ih _ hstep
  exact main ops initState (by simp [stats_inv, initState, initStats])

/-- C8: given the recorded last-call time, the rate-limited Alpha Vantage
fetch suspends for at least min_interval minus the elapsed time whenever the
elapsed time is below min_interval, and records the fresh clock reading t2
as the new last-call time before the provider call returns, for every
response including a raised request exception. -/
theorem claim8_theorem (lastCall minInterval t1 t2 : ℚ) (resp : AVResp) :
    (t1 - lastCall < minInterval →
      minInterval - (t1 - lastCall)
        ≤ (fetch_alphavantage_stock true lastCall minInterval t1 t2 resp).sleepDuration) ∧
    (fetch_alphavantage_stock true lastCall minInterval t1 t2 resp).last_alphavantage_call
      = t2 := by
  constructor
  · intro h
    simp [fetch_alphavantage_stock, wait_for_rate_limit, h]
  · simp [fetch_alphavantage_stock]

/-- C8 witness: last call at time 0, min interval 12, elapsed 5 at the check:
the call sleeps at least 7 and still updates the last-call time to 5 although
the request raises. -/
theorem claim8_witness :
    (12 : ℚ) - ((5 : ℚ) - 0)
      ≤ (fetch_alphavantage_stock true 0 12 5 5 (.raisedExn "boom")).sleepDuration ∧
    (fetch_alphavantage_stock true 0 12 5 5 (.raisedExn "boom")).last_alphavantage_call = 5 :=
  ⟨(claim8_theorem 0 12 5 5 (.raisedExn "boom")).1 (by norm_num),
   (claim8_theorem 0 12 5 5 (.raisedExn "boom")).2⟩

/-- C9: get_success_rate returns (primary_successes + fallback_successes) /
total_attempts * 100 for every tracker state with total_attempts > 0, and
returns exactly 100 when total_attempts is 0, never dividing by zero. -/
theorem claim9_theorem (s : FetchStats) :
    (s.total_attempts = 0 → get_success_rate s = 100) ∧
    (0 < s.total_attempts →
      get_success_rate s =
        ((s.primary_successes : ℚ) + (s.fallback_successes : ℚ))
          / (s.total_attempts : ℚ) * 100) := by
  constructor
  · intro h; simp [get_success_rate, h]
  · intro h
    have hne : ¬ s.total_attempts = 0 := by omega
    simp [get_success_rate, hne]

/-- C9 witness: two attempts with one primary success give 50 percent, a
fresh tracker gives 100 percent. -/
theorem claim9_witness :
    get_success_rate ⟨2, 1, 0, 1, 0⟩ = 50 ∧ get_success_rate ⟨0, 0, 0, 0, 0⟩ = 100 := by
  constructor
  · have h := (claim9_theorem ⟨2, 1, 0, 1, 0⟩).2 (by decide)
    rw [h]
    norm_num
  · exact (claim9_theorem ⟨0, 0, 0, 0, 0⟩).1 rfl

/-- C10: constructing a ResilientFetcher with explicit falsy arguments
(max_retries = 0, backoff_base = 0.0, timeout = 0.0) silently installs the
RETRY_CONFIG defaults 3 / 2.0 / 10.0 because of truthiness-based defaulting,
and no argument whatsoever can configure zero retries. -/
theorem claim10_theorem :
    resilient_fetcher_init (some 0) (some 0) (some 0) = ⟨3, 2, 10⟩ ∧
    ∀ (mr : Option Int) (bb tmo : Option ℚ),
      (resilient_fetcher_init mr bb tmo).max_retries ≠ 0 := by
  constructor
  · rfl
  · intro mr bb tmo
    cases mr with
    | none => simp [resilient_fetcher_init, py_or_int]
    | some v =>
      by_cases hv : v = 0 <;> simp [resilient_fetcher_init, py_or_int, hv]

/-- C1 (amended): for operations that fail with a caught retryable error on
every attempt, the retry decorators invoke the wrapped operation exactly
max_retries + 1 times (one initial try plus max_retries retries), but
ResilientFetcher.fetch_with_retry invokes the primary fetcher only
max_retries times (one initial try plus max_retries - 1 retries). -/
theorem claim1_theorem :
    (∀ (V : Type) (mr : Nat) (d0 f : ℚ) (behavior : Nat → DecAttempt V TableExn),
      (∀ i, ∃ e, behavior i = .exn e ∧ tableCaught e = true ∧ tableRetryable e = true) →
      (retry_table_operation mr d0 f behavior).calls = mr + 1) ∧
    (∀ (Q : Type) (mr : Nat) (base rld : ℚ) (st : FetcherState) (ticker : String)
      (primary : Nat → PAttempt Q) (fallback : Option (PAttempt Q)),
      (∀ i, ∃ m, primary i = .exn m) →
      (fetch_with_retry mr base st ticker primary fallback rld).primaryCalls = mr) := by
  constructor
  · intro V mr d0 f behavior hfail
    obtain ⟨e, he, hdec⟩ :=
      decGo_all_retryable tableCaught tableRetryable mr f behavior hfail mr 0 d0 none
        (by omega)
    unfold retry_table_operation run_decorator
    rw [hdec]
  · intro Q mr base rld st ticker primary fallback hfail
    obtain ⟨s, hs, hlen⟩ := primaryLoop_all_exn mr base rld primary mr 0 (by omega)
      (fun i _ => hfail i)
    unfold fetch_with_retry
    cases fallback with
    | none => simp [hs]
    | some fa => cases fa <;> simp [hs]

/-- C1 witness: with max_retries = 3, an always-503 table operation is
invoked 4 times by the decorator, while fetch_with_retry invokes an
always-503 primary 3 times. -/
theorem claim1_witness :
    (retry_table_operation 3 (1/2) 2 always503Table).calls = 3 + 1 ∧
    (fetch_with_retry 3 2 initState "AAPL" always503Primary none 0).primaryCalls = 3 :=
  ⟨claim1_theorem.1 Unit 3 (1/2) 2 always503Table
      (fun _ => ⟨.httpResponse 503, rfl, rfl, rfl⟩),
   claim1_theorem.2 Unit 3 2 0 initState "AAPL" always503Primary none
      (fun _ => ⟨some 503, rfl⟩)⟩

/-- C1 counterexample: with the default max_retries = 3 and a primary that
fails transiently on every attempt, fetch_with_retry invokes the primary
exactly 3 times, not max_retries + 1 = 4 as the claim states. -/
theorem claim1_counterexample :
    (fetch_with_retry 3 2 initState "AAPL" always503Primary none 0).primaryCalls = 3 ∧
    (fetch_with_retry 3 2 initState "AAPL" always503Primary none 0).primaryCalls ≠ 3 + 1 := by
  constructor <;> decide

/-- C2 (amended): the mailer retry decorator propagates a non-retryable
client error (4xx other than 429) raised on the first attempt immediately
with a single invocation and zero sleeps; ResilientFetcher.fetch_with_retry,
which classifies nothing, instead retries every exception: with no fallback
configured it makes max_retries invocations with max_retries - 1 backoff
sleeps before recording the failure (total_failures + 1), attempting no
fallback and returning None. -/
theorem claim2_theorem :
    (∀ (V : Type) (mr : Nat) (d0 f : ℚ) (behavior : Nat → DecAttempt V MailerExn) (s : Int),
      400 ≤ s → s < 500 → s ≠ 429 → behavior 0 = .exn (.apiException s) →
      retry_with_backoff mr d0 f behavior = ⟨.raised (.apiException s), 1, []⟩) ∧
    (∀ (Q : Type) (mr : Nat) (base rld : ℚ) (st : FetcherState) (ticker : String)
      (primary : Nat → PAttempt Q),
      (∀ i, ∃ m, primary i = .exn m) →
      (fetch_with_retry mr base st ticker primary none rld).state.stats.total_failures
          = st.stats.total_failures + 1 ∧
      (fetch_with_retry mr base st ticker primary none rld).quote = none ∧
      (fetch_with_retry mr base st ticker primary none rld).fallbackCalls = 0 ∧
      (fetch_with_retry mr base st ticker primary none rld).primaryCalls = mr ∧
      (fetch_with_retry mr base st ticker primary none rld).sleeps.length = mr - 1) := by
  constructor
  · intro V mr d0 f behavior s h4 h5 h429 hb
    have hr : mailerRetryable (.apiException s) = false := by
      simp only [mailerRetryable, Bool.or_eq_false_iff, decide_eq_false_iff_not]
      omega
    have hnr : ¬ (0 < mr ∧ mailerRetryable (.apiException s) = true) := by
      simp [hr]
    unfold retry_with_backoff run_decorator
    exact decGo_noretry_step mailerCaught mailerRetryable mr f behavior mr 0 d0 none
      (.apiException s) hb hnr
  · intro Q mr base rld st ticker primary hfail
    obtain ⟨s, hs, hlen⟩ := primaryLoop_all_exn mr base rld primary mr 0 (by omega)
      (fun i _ => hfail i)
    unfold fetch_with_retry
    refine ⟨?_, ?_, ?_, ?_, ?_⟩ <;> simp [hs, record_failure, hlen]

/-- C2 witness: a 400 ApiException is propagated by the mailer decorator
after one invocation with no sleep, and an always-400 primary drives
fetch_with_retry to a recorded failure with a None result. -/
theorem claim2_witness :
    retry_with_backoff 3 1 2 always400Mailer = ⟨.raised (.apiException 400), 1, []⟩ ∧
    (fetch_with_retry 3 2 initState "AAPL" alwaysClientError none 0).state.stats.total_failures
        = initState.stats.total_failures + 1 ∧
    (fetch_with_retry 3 2 initState "AAPL" alwaysClientError none 0).quote = none :=
  ⟨claim2_theorem.1 Unit 3 1 2 always400Mailer 400 (by norm_num) (by norm_num) (by decide) rfl,
   (claim2_theorem.2 Unit 3 2 0 initState "AAPL" alwaysClientError
      (fun _ => ⟨some 400, rfl⟩)).1,
   (claim2_theorem.2 Unit 3 2 0 initState "AAPL" alwaysClientError
      (fun _ => ⟨some 400, rfl⟩)).2.1⟩

/-- C2 counterexample: a primary raising a 400 client error on the first
attempt is retried anyway by fetch_with_retry under the default
max_retries = 3: three invocations and two backoff sleeps, not zero sleeps
with immediate propagation. -/
theorem claim2_counterexample :
    (fetch_with_retry 3 2 initState "AAPL" alwaysClientError none 0).primaryCalls = 3 ∧
    (fetch_with_retry 3 2 initState "AAPL" alwaysClientError none 0).sleeps.length = 2 ∧
    ¬ ((fetch_with_retry 3 2 initState "AAPL" alwaysClientError none 0).primaryCalls = 1 ∧
      (fetch_with_retry 3 2 initState "AAPL" alwaysClientError none 0).sleeps = []) := by
  refine ⟨?_, ?_, ?_⟩ <;> decide

/-- C3 (amended): the fetcher backoff for retry index i equals the
rate-limit floor plus backoff_base ^ i (an effective initial_delay of 1) and
is strictly increasing in i for backoff_base > 1; a decorator delay on retry
i equals initial_delay * backoff_factor ^ i with no floor, strictly
increasing for factor > 1 when initial_delay > 0; so each delay is at least
initial_delay times base ^ i (plus the floor), which for initial_delay < 1
is below base ^ i. -/
theorem claim3_theorem :
    (∀ (b rd : ℚ) (i : Nat), calculate_backoff b i rd = rd + b ^ i) ∧
    (∀ (b rd : ℚ) (i j : Nat), 1 < b → i < j →
      calculate_backoff b i rd < calculate_backoff b j rd) ∧
    (∀ (V : Type) (mr : Nat) (d0 f : ℚ) (behavior : Nat → DecAttempt V TableExn),
      (∀ n, ∃ e, behavior n = .exn e ∧ tableCaught e = true ∧ tableRetryable e = true) →
      ∀ i, i < mr →
        (retry_table_operation mr d0 f behavior).sleeps[i]? = some (d0 * f ^ i)) ∧
    (∀ (d0 f : ℚ) (i j : Nat), 0 < d0 → 1 < f → i < j → d0 * f ^ i < d0 * f ^ j) := by
  refine ⟨fun b rd i => rfl, ?_, ?_, ?_⟩
  · intro b rd i j hb hij
    unfold calculate_backoff
    have := pow_lt_pow_right₀ hb hij
    linarith
  · intro V mr d0 f behavior hfail i hi
    obtain ⟨e, he, hdec⟩ :=
      decGo_all_retryable tableCaught tableRetryable mr f behavior hfail mr 0 d0 none
        (by omega)
    unfold retry_table_operation run_decorator
    rw [hdec]
    exact expectedDecSleeps_get f mr d0 i hi
  · intro d0 f i j hd0 hf hij
    have := pow_lt_pow_right₀ hf hij
    have hpos : (0 : ℚ) < f ^ i := by positivity
    nlinarith

/-- C3 witness: the fetcher backoff with base 2 and floor 5 equals 5 + 2^i
and grows strictly; the table decorator with initial delay 1/2 and factor 2
sleeps 1/2 * 2^1 = 1 before its second retry; geometric delays grow
strictly. -/
theorem claim3_witness :
    calculate_backoff 2 0 5 = 5 + 2 ^ 0 ∧
    calculate_backoff 2 0 5 < calculate_backoff 2 1 5 ∧
    (retry_table_operation 3 (1/2) 2 always503Table).sleeps[1]? = some ((1/2 : ℚ) * 2 ^ 1) ∧
    (1/2 : ℚ) * 2 ^ 0 < (1/2 : ℚ) * 2 ^ 1 :=
  ⟨claim3_theorem.1 2 5 0,
   claim3_theorem.2.1 2 5 0 1 (by norm_num) (by omega),
   claim3_theorem.2.2.1 Unit 3 (1/2) 2 always503Table
     (fun _ => ⟨.httpResponse 503, rfl, rfl, rfl⟩) 1 (by omega),
   claim3_theorem.2.2.2 (1/2) 2 0 1 (by norm_num) (by norm_num) (by omega)⟩

/-- C3 counterexample: at the email_subscriber call sites the decorator
initial_delay is 0.5, so the first computed retry delay is 1/2, strictly
below the claimed lower bound backoff_base ^ 0 plus the (zero) floor = 1. -/
theorem claim3_counterexample :
    (retry_table_operation 3 (1/2) 2 always503Table).sleeps[0]? = some (1/2 : ℚ) ∧
    ¬ ((2 : ℚ) ^ 0 + 0 ≤ (1/2 : ℚ)) := by
  constructor
  · obtain ⟨e, he, hdec⟩ :=
      decGo_all_retryable tableCaught tableRetryable 3 2 always503Table
        (fun _ => ⟨.httpResponse 503, rfl, rfl, rfl⟩) 3 0 (1/2) none (by omega)
    unfold retry_table_operation run_decorator
    rw [hdec]
    rw [expectedDecSleeps_get 2 3 (1/2) 0 (by omega)]
    norm_num
  · norm_num

/-- C6 (amended): when the primary first succeeds on its Kth invocation with
K ≤ max_retries (the code never makes a max_retries + 1st attempt), one
fetch_with_retry call adds exactly K - 1 to retries_used and exactly 1 to
primary_successes and returns the quote; when the primary never succeeds,
retries_used is unchanged on both the fallback and the failure paths. -/
theorem claim6_theorem :
    (∀ (Q : Type) (mr : Nat) (base rld : ℚ) (st : FetcherState) (ticker : String)
      (primary : Nat → PAttempt Q) (fallback : Option (PAttempt Q)) (K : Nat) (q : Q),
      1 ≤ K → K ≤ mr →
      (∀ i, i < K - 1 → (primary i).isOk = false) →
      primary (K - 1) = .ok q →
      (fetch_with_retry mr base st ticker primary fallback rld).state.stats.primary_successes
          = st.stats.primary_successes + 1 ∧
      (fetch_with_retry mr base st ticker primary fallback rld).state.stats.retries_used
          = st.stats.retries_used + (K - 1) ∧
      (fetch_with_retry mr base st ticker primary fallback rld).quote = some q) ∧
    (∀ (Q : Type) (mr : Nat) (base rld : ℚ) (st : FetcherState) (ticker : String)
      (primary : Nat → PAttempt Q) (fallback : Option (PAttempt Q)),
      (∀ i, (primary i).isOk = false) →
      (fetch_with_retry mr base st ticker primary fallback rld).state.stats.retries_used
          = st.stats.retries_used) := by
  constructor
  · intro Q mr base rld st ticker primary fallback K q hK1 hKmr hfail hok
    obtain ⟨s, c, hs⟩ := primaryLoop_first_success mr base rld primary mr 0 (K - 1) q
      (by omega) (fun i hi => by simpa using hfail i hi) (by simpa using hok)
    rw [show (0 : Nat) + (K - 1) = K - 1 from by omega] at hs
    unfold fetch_with_retry
    by_cases hK : 0 < K - 1
    · refine ⟨?_, ?_, ?_⟩ <;> simp [hs, hK]
    · have hz : K - 1 = 0 := by omega
      rw [hz] at hs ⊢
      refine ⟨?_, ?_, ?_⟩ <;> simp [hs]
  · intro Q mr base rld st ticker primary fallback hfail
    obtain ⟨s, c, hs⟩ := primaryLoop_all_fail mr base rld primary mr 0 (fun i _ => hfail i)
    unfold fetch_with_retry
    cases fallback with
    | none => simp [hs, record_failure]
    | some fa => cases fa <;> simp [hs, record_failure]

/-- C6 witness: a primary that fails once then succeeds (K = 2) under
max_retries = 3 adds 1 to retries_used, 1 to primary_successes, and returns
the quote. -/
theorem claim6_witness :
    (fetch_with_retry 3 2 initState "AAPL" failOnceThenOk none 0).state.stats.primary_successes
        = initState.stats.primary_successes + 1 ∧
    (fetch_with_retry 3 2 initState "AAPL" failOnceThenOk none 0).state.stats.retries_used
        = initState.stats.retries_used + (2 - 1) ∧
    (fetch_with_retry 3 2 initState "AAPL" failOnceThenOk none 0).quote = some () :=
  claim6_theorem.1 Unit 3 2 0 initState "AAPL" failOnceThenOk none 2 ()
    (by omega) (by omega)
    (fun i hi => by
      have hz : i = 0 := by omega
      subst hz
      rfl)
    rfl

/-- C6 counterexample: with max_retries = 3, a primary whose first success
would be its 4th invocation (K = max_retries + 1, a value the claim covers)
never gets that attempt: primary_successes stays 0 and the call is recorded
as a failure with a None result. -/
theorem claim6_counterexample :
    (fetch_with_retry 3 2 initState "AAPL" failThriceThenOk none 0).state.stats.primary_successes
        = 0 ∧
    (fetch_with_retry 3 2 initState "AAPL" failThriceThenOk none 0).quote = none ∧
    (fetch_with_retry 3 2 initState "AAPL" failThriceThenOk none 0).state.stats.total_failures
        = 1 := by
  refine ⟨?_, ?_, ?_⟩ <;> decide

/-- C7: a duplicate create is not treated as a failure: the escaping
ResourceExistsError (status 409, caught by the decorator via its
HttpResponseError superclass and classified non-retryable) is propagated
after exactly one invocation with no sleeps, and subscribe_email reports the
distinguished "exists" status, not "created". -/
theorem claim7_theorem (behavior : Nat → DecAttempt Unit TableExn)
    (h : behavior 0 = .exn .resourceExists) :
    subscribe_email behavior = .existing ∧
    subscribe_email behavior ≠ .created ∧
    (retry_table_operation 3 (1/2) 2 behavior).calls = 1 ∧
    (retry_table_operation 3 (1/2) 2 behavior).sleeps = [] := by
  have hdec : retry_table_operation 3 (1/2) 2 behavior =
      ⟨.raised .resourceExists, 1, []⟩ := by
    unfold retry_table_operation run_decorator
    exact decGo_noretry_step tableCaught tableRetryable 3 2 behavior 3 0 (1/2) none
      .resourceExists h (by decide)
  refine ⟨?_, ?_, ?_, ?_⟩
  · unfold subscribe_email
    rw [hdec]
  · unfold subscribe_email
    rw [hdec]
    decide
  · rw [hdec]
  · rw [hdec]

/-- C7 witness: a create that raises ResourceExistsError on its first
attempt yields the "exists" status after a single invocation and no sleep. -/
theorem claim7_witness :
    subscribe_email alwaysExistsTable = .existing ∧
    subscribe_email alwaysExistsTable ≠ .created ∧
    (retry_table_operation 3 (1/2) 2 alwaysExistsTable).calls = 1 ∧
    (retry_table_operation 3 (1/2) 2 alwaysExistsTable).sleeps = [] :=
  claim7_theorem alwaysExistsTable rfl

/-- C4: fetch_batch processes keys strictly in input order: all of them when
continue_on_failure, otherwise exactly through the first falsy fetch with
all later keys unprocessed; its sleep schedule is the per-entity backoff
sleeps with the rate-limit sleep inserted strictly between consecutive
entities and never inside an entity, where every in-entity sleep is a
computed backoff value; and the returned mapping holds exactly the processed
entities whose fetch (primary or fallback) succeeded. -/
theorem claim4_theorem (Q : Type) (mr : Nat) (base : ℚ) (st : FetcherState)
    (tickers : List String) (primary : String → Nat → PAttempt Q)
    (fallback : Option (String → PAttempt Q)) (rld : ℚ) (cof : Bool) :
    (fetch_batch mr base st tickers primary fallback rld cof).processed =
      (if cof = true then tickers
       else tickers.takeWhile
           (fun u => (entity_quote mr base primary fallback rld u).isSome)
         ++ (tickers.dropWhile
           (fun u => (entity_quote mr base primary fallback rld u).isSome)).take 1) ∧
    (fetch_batch mr base st tickers primary fallback rld cof).sleeps =
      specBatchSleeps (if 0 < rld then [rld] else [])
        (entity_sleeps mr base primary fallback rld) true
        ((fetch_batch mr base st tickers primary fallback rld cof).processed) ∧
    (∀ t x, x ∈ entity_sleeps mr base primary fallback rld t →
      ∃ a, a < mr - 1 ∧ x = calculate_backoff base a rld) ∧
    (∀ k, (fetch_batch mr base st tickers primary fallback rld cof).results k =
      (if k ∈ (fetch_batch mr base st tickers primary fallback rld cof).processed
       then entity_quote mr base primary fallback rld k else none)) := by
  refine ⟨batch_processed_char mr base primary fallback rld cof tickers st true,
    batch_sleeps_char mr base primary fallback rld cof tickers st true, ?_,
    fun k => batch_results_char mr base primary fallback rld cof tickers st true k⟩
  intro t x hx
  rw [entity_sleeps, fetch_sleeps_eq_loop] at hx
  exact primaryLoop_sleeps_backoff mr base rld (primary t) mr 0 x hx

/-- C4 witness: a two-ticker batch with continue_on_failure false,
rate-limit delay 5 and max_retries 2, where "AAA" succeeds at once and "BBB"
always raises 500: both tickers are processed (the batch stops at the
failing "BBB"), the results map holds exactly "AAA", and the failing
entity's in-entity sleep is a computed backoff value. -/
theorem claim4_witness :
    (fetch_batch 2 2 initState ["AAA", "BBB"] batchDemoPrimary none 5 false).processed
        = ["AAA", "BBB"] ∧
    (fetch_batch 2 2 initState ["AAA", "BBB"] batchDemoPrimary none 5 false).results "AAA"
        = some () ∧
    (fetch_batch 2 2 initState ["AAA", "BBB"] batchDemoPrimary none 5 false).results "BBB"
        = none ∧
    ∃ a, a < 2 - 1 ∧ calculate_backoff 2 0 5 = calculate_backoff 2 a 5 := by
  have haa : ∀ i, batchDemoPrimary "AAA" i = .ok () := fun _ => if_pos rfl
  have hbb : ∀ i, batchDemoPrimary "BBB" i = .exn (some 500) := fun _ => if_neg (by decide)
  have haaa : entity_quote 2 2 batchDemoPrimary none 5 "AAA" = some () := by
    simp [entity_quote, fetch_with_retry, primaryLoop, haa]
  have hbbbq : entity_quote 2 2 batchDemoPrimary none 5 "BBB" = none := by
    simp [entity_quote, fetch_with_retry, primaryLoop, hbb, record_failure]
  have hsl : entity_sleeps 2 2 batchDemoPrimary none 5 "BBB" = [calculate_backoff 2 0 5] := by
    rw [entity_sleeps, fetch_sleeps_eq_loop]
    simp [primaryLoop, hbb, LoopResult.sleepsOf]
  have hmem : calculate_backoff 2 0 5 ∈ entity_sleeps 2 2 batchDemoPrimary none 5 "BBB" := by
    rw [hsl]
    exact List.mem_singleton_self _
  have h := claim4_theorem Unit 2 2 initState ["AAA", "BBB"] batchDemoPrimary none 5 false
  have hproc : (fetch_batch 2 2 initState ["AAA", "BBB"] batchDemoPrimary none 5
      false).processed = ["AAA", "BBB"] := by
    rw [h.1]
    simp [haaa, hbbbq]
  refine ⟨hproc, ?_, ?_, h.2.2.1 "BBB" (calculate_backoff 2 0 5) hmem⟩
  · rw [h.2.2.2 "AAA", hproc]
    simp [haaa]
  · rw [h.2.2.2 "BBB", hproc]
    simp [hbbbq]

/-- C5 witness: the invariant holds after a concrete sequence of a failing
fetch, a reset, and a succeeding fetch. -/
theorem claim5_witness :
    stats_inv (run_ops 3 2
      [FetchOp.fetchOne "AAPL" always503Primary none 0, FetchOp.resetOp,
       FetchOp.fetchOne "MSFT" failOnceThenOk none 0] initState) :=
  claim5_theorem Unit 3 2
    [FetchOp.fetchOne "AAPL" always503Primary none 0, FetchOp.resetOp,
     FetchOp.fetchOne "MSFT" failOnceThenOk none 0]

/-- C10 witness: explicit zeros are replaced by the defaults 3 / 2.0 / 10.0,
and in particular the resulting max_retries is not zero. -/
theorem claim10_witness :
    resilient_fetcher_init (some 0) (some 0) (some 0) = ⟨3, 2, 10⟩ ∧
    (resilient_fetcher_init (some 0) (some 0) (some 0)).max_retries ≠ 0 :=
  ⟨claim10_theorem.1, claim10_theorem.2 (some 0) (some 0) (some 0)⟩
